import Mathlib

/-!
Shallow embedding of `src/legal-neuro-trainer/app.py`, a small Flask
vocabulary-trainer application.

Python `dict`s are insertion-ordered with unique keys; we embed them as
association lists (`List (String × α)`) with dict semantics: an update of an
existing key replaces the value in place, a new key is appended at the end,
and deletion removes the (unique) entry.  Python `str.strip` and `str.lower`
are modelled by the character-list functions `pyStrip` and `pyLower`.

The durable JSON file is modelled by `FileState`: `absent` (no file),
`corrupt` (a file whose content fails to parse as JSON), and `good d` (a file
whose JSON content parses to the dataset `d`).  JSON serialization of a
nested string-to-string mapping is faithfully invertible, so `save_data` is
modelled as storing the dataset value itself.
-/

namespace App

/-- A word mapping: term → translation, a Python dict embedded as an
association list. -/
abbrev WordMap := List (String × String)

/-- The vocabulary dataset: category name → word mapping. -/
abbrev Dataset := List (String × WordMap)

/-- Key lookup in an association list (Python `d[k]` / `k in d`). -/
def alLookup {α : Type} (k : String) : List (String × α) → Option α
  | [] => none
  | (k', v) :: rest => if k' = k then some v else alLookup k rest

/-- Python dict assignment `d[k] = v`: replace in place if the key exists,
else append at the end. -/
def alInsert {α : Type} (k : String) (v : α) : List (String × α) → List (String × α)
  | [] => [(k, v)]
  | (k', v') :: rest => if k' = k then (k', v) :: rest else (k', v') :: alInsert k v rest

/-- Python `del d[k]`: remove the (unique) entry with key `k`, no-op when
absent. -/
def alErase {α : Type} (k : String) : List (String × α) → List (String × α)
  | [] => []
  | (k', v') :: rest => if k' = k then rest else (k', v') :: alErase k rest

/-- `get_default_data` from app.py: the fixed seed dataset. -/
def get_default_data : Dataset :=
  [("Гражданское право",
     [("contract", "договор"), ("obligation", "обязательство"),
      ("property", "собственность"), ("liability", "ответственность")]),
   ("Уголовное право",
     [("crime", "преступление"), ("penalty", "наказание"),
      ("evidence", "доказательство"), ("suspect", "подозреваемый")]),
   ("Международное право",
     [("treaty", "договор"), ("sovereignty", "суверенитет"),
      ("diplomacy", "дипломатия"), ("sanction", "санкция")])]

/-- State of the durable file `data/legal_words.json`. -/
inductive FileState : Type
  | absent : FileState
  | corrupt : FileState
  | good : Dataset → FileState
deriving DecidableEq

/-- `save_data` from app.py: overwrites the durable file wholesale with the
serialized dataset. -/
def save_data (data : Dataset) : FileState := FileState.good data

/-- `load_data` from app.py.  If the file exists and parses, its content is
returned and the file is untouched.  If the file exists but parsing raises
(`except: return get_default_data()`), the seed is returned and the file is
NOT rewritten.  If the file is absent, the seed is returned after being
persisted (`save_data(data)`). -/
def load_data : FileState → Dataset × FileState
  | FileState.absent => (get_default_data, save_data get_default_data)
  | FileState.corrupt => (get_default_data, FileState.corrupt)
  | FileState.good d => (d, FileState.good d)

/-- Python `str.lower`, modelled character-wise over the string's character
list (core's `String.toLower` recurses over byte positions, which the
kernel cannot evaluate; this model computes). -/
def pyLower (s : String) : String := ⟨s.data.map Char.toLower⟩

/-- Python `str.strip` with no argument: remove whitespace from both ends. -/
def pyStrip (s : String) : String :=
  ⟨((s.data.dropWhile Char.isWhitespace).reverse.dropWhile Char.isWhitespace).reverse⟩

/-- Per-browser quiz session state, with the defaults Flask's
`session.get` supplies (`[]`, `0`, `0`, `''`).  All counters are naturals,
so the `0 ≤` halves of the session invariant hold by typing. -/
structure Session : Type where
  test_words : List (String × String)
  current_index : Nat
  score : Nat
  category : String
deriving DecidableEq

/-- The session of a browser that has never started a quiz. -/
def initSession : Session := ⟨[], 0, 0, ""⟩

/-- `GET /test/<category>` from app.py: start a quiz.  On a missing or empty
category the handler redirects and leaves the session unchanged; otherwise it
snapshots the category's words and resets the counters. -/
def test (category : String) (f : FileState) (s : Session) : Session × FileState :=
  let r := load_data f
  match alLookup category r.1 with
  | none => (s, r.2)
  | some words =>
      if words = [] then (s, r.2)
      else ({ test_words := words, current_index := 0, score := 0, category := category }, r.2)

/-- JSON responses of `POST /check_answer`. -/
inductive CheckResponse : Type
  | finishedOnly : CheckResponse
  | answered : Bool → String → Bool → CheckResponse
deriving DecidableEq

/-- `POST /check_answer` from app.py.  Loads the dataset (discarding it),
trims and lower-cases the submitted answer, and either reports
`{finished: true}` when the cursor is already past the snapshot, or grades
the current word, conditionally bumps the score, and advances the cursor. -/
def check_answer (answer : String) (f : FileState) (s : Session) :
    CheckResponse × Session × FileState :=
  let f' := (load_data f).2
  let user_answer := pyLower (pyStrip answer)
  let words := s.test_words
  let current_index := s.current_index
  if h : words.length ≤ current_index then
    (CheckResponse.finishedOnly, s, f')
  else
    let correct_translation := (words.get ⟨current_index, by omega⟩).2
    let is_correct := user_answer == pyLower correct_translation
    let new_index := current_index + 1
    (CheckResponse.answered is_correct correct_translation (decide (words.length ≤ new_index)),
     { s with score := if is_correct then s.score + 1 else s.score,
              current_index := new_index }, f')

/-- The template context rendered by `GET /results`. -/
structure ResultsView : Type where
  score : Nat
  total : Nat
  category : String
  percentage : ℚ
deriving DecidableEq

/-- Python `round` to the nearest integer, ties to even (banker's
rounding), on exact rationals. -/
def pyRoundHalfEven (q : ℚ) : ℤ :=
  let fl := q.floor
  let fr := q - (fl : ℚ)
  if fr < 1/2 then fl
  else if 1/2 < fr then fl + 1
  else if fl % 2 = 0 then fl else fl + 1

/-- Python `round(x, 1)`: round to one decimal digit, ties to even. -/
def pyRound1 (q : ℚ) : ℚ := ((pyRoundHalfEven (q * 10) : ℤ) : ℚ) / 10

/-- `GET /results` from app.py: reads `score`, `total`, `category` from the
session and computes `round(score/total*100, 1) if total > 0 else 0`.  The
session is returned unchanged (the handler only reads it). -/
def results (s : Session) : ResultsView × Session :=
  let score := s.score
  let total := s.test_words.length
  ({ score := score, total := total, category := s.category,
     percentage := if 0 < total then pyRound1 ((score : ℚ) / (total : ℚ) * 100) else 0 }, s)

/-- Responses of the `POST /add_word` form handler. -/
inductive AddWordResponse : Type
  | validationError : String → AddWordResponse
  | successMsg : String → AddWordResponse
deriving DecidableEq

/-- `POST /add_word` from app.py.  Form fields arrive as strings
(`request.form.get(..., '')`).  `english` is stripped and lower-cased,
the other fields stripped; empty `english` or `russian` is rejected, the
category is `new_category` when non-empty else `category`, and an empty
resolved category is rejected.  On success the word is upserted and the
dataset saved. -/
def add_word_post (english russian category new_category : String) (f : FileState) :
    AddWordResponse × FileState :=
  let r := load_data f
  let data := r.1
  let e := pyLower (pyStrip english)
  let ru := pyStrip russian
  let c := pyStrip category
  let nc := pyStrip new_category
  if e = "" ∨ ru = "" then
    (AddWordResponse.validationError "Все поля обязательны для заполнения", r.2)
  else
    let final_category := if nc ≠ "" then nc else c
    if final_category = "" then
      (AddWordResponse.validationError "Необходимо выбрать или создать категорию", r.2)
    else
      let data1 := if (alLookup final_category data).isSome then data
                   else alInsert final_category [] data
      let data2 := alInsert final_category
        (alInsert e ru ((alLookup final_category data1).getD [])) data1
      (AddWordResponse.successMsg e, save_data data2)

/-- `GET /api/words` from app.py: returns the loaded dataset as JSON. -/
def api_words_get (f : FileState) : Dataset × FileState := load_data f

/-- `POST /api/words` from app.py.  The JSON fields are used exactly as
supplied — no trimming, no lower-casing, no validation: the category is
created when absent and the (english → russian) entry written, then the
dataset is saved. -/
def api_words_post (english russian category : String) (f : FileState) : FileState :=
  let data := (load_data f).1
  let data1 := if (alLookup category data).isSome then data else alInsert category [] data
  let data2 := alInsert category
    (alInsert english russian ((alLookup category data1).getD [])) data1
  save_data data2

/-- Python truthiness of `request.json.get('english')`: `None` and the empty
string are falsy. -/
def truthy : Option String → Bool
  | none => false
  | some s => s ≠ ""

/-- The dataset transformation of `DELETE /api/words`: when a truthy
`english` is supplied, delete that word (dropping the category if it becomes
empty); otherwise delete the whole category.  Absent keys are no-ops. -/
def delete_step (data : Dataset) (category : String) (english : Option String) : Dataset :=
  if truthy english then
    let e := english.getD ""
    match alLookup category data with
    | some wm =>
        if (alLookup e wm).isSome then
          let wm' := alErase e wm
          if wm' = [] then alErase category data else alInsert category wm' data
        else data
    | none => data
  else alErase category data

/-- `DELETE /api/words` from app.py: load, apply `delete_step`, save. -/
def api_words_delete (category : String) (english : Option String) (f : FileState) : FileState :=
  let data := (load_data f).1
  save_data (delete_step data category english)

/-- No category maps to an empty word mapping. -/
def NoEmptyCats (d : Dataset) : Prop := ∀ p ∈ d, p.2 ≠ []

instance (d : Dataset) : Decidable (NoEmptyCats d) := by
  unfold NoEmptyCats; infer_instance

/-! ### Association-list lemmas -/

theorem alLookup_alInsert_self {α : Type} (k : String) (v : α) (l : List (String × α)) :
    alLookup k (alInsert k v l) = some v := by
  induction l with
  | nil => simp [alInsert, alLookup]
  | cons head tail ih =>
      obtain ⟨k', v'⟩ := head
      by_cases hk : k' = k
      · simp [alInsert, alLookup, hk]
      · simp [alInsert, alLookup, hk, ih]

theorem mem_alInsert {α : Type} {k : String} {v : α} {l : List (String × α)}
    {p : String × α} (hp : p ∈ alInsert k v l) : p.2 = v ∨ p ∈ l := by
  induction l with
  | nil =>
      simp [alInsert] at hp
      simp [hp]
  | cons head tail ih =>
      obtain ⟨k', v'⟩ := head
      by_cases hk : k' = k
      · simp [alInsert, hk] at hp
        rcases hp with h | h
        · left; simp [h]
        · right; simp [h]
      · simp [alInsert, hk] at hp
        rcases hp with h | h
        · right; simp [h]
        · rcases ih h with h' | h'
          · left; exact h'
          · right; simp [h']

theorem mem_alErase {α : Type} {k : String} {l : List (String × α)}
    {p : String × α} (hp : p ∈ alErase k l) : p ∈ l := by
  induction l with
  | nil => simp [alErase] at hp
  | cons head tail ih =>
      obtain ⟨k', v'⟩ := head
      by_cases hk : k' = k
      · simp [alErase, hk] at hp
        simp [hp]
      · simp [alErase, hk] at hp
        rcases hp with h | h
        · simp [h]
        · simp [ih h]

/-- A dataset whose category list and each word mapping have pairwise
distinct keys and no category is empty. -/
def WellFormed (d : Dataset) : Prop :=
  d.Pairwise (fun a b => a.1 ≠ b.1) ∧
  ∀ p ∈ d, p.2 ≠ [] ∧ p.2.Pairwise (fun a b => a.1 ≠ b.1)

instance (d : Dataset) : Decidable (WellFormed d) := by
  unfold WellFormed; infer_instance

/-! ### Claim theorems -/

/-- C3 counterexample: with a corrupt durable file, load_data returns the
seed dataset but leaves the file corrupt, so after this load the durable
file does not hold the returned dataset, contradicting the claim that
load() always persists the fallback. -/
theorem load_data_corrupt_counterexample :
    (load_data FileState.corrupt).1 = get_default_data ∧
    (load_data FileState.corrupt).2 = FileState.corrupt ∧
    FileState.corrupt ≠ FileState.good (load_data FileState.corrupt).1 := by
  refine ⟨rfl, rfl, by decide⟩

/-- C3 (amended): load_data returns the persisted dataset when the durable
file exists and parses; when the file is absent it returns the seed dataset
and persists it; when the file exists but fails to parse it returns the
seed dataset WITHOUT rewriting the file.  It never fails outward (it is a
total function). -/
theorem load_data_amended (f : FileState) :
    (∀ d, f = FileState.good d → load_data f = (d, FileState.good d)) ∧
    (f = FileState.absent → load_data f = (get_default_data, FileState.good get_default_data)) ∧
    (f = FileState.corrupt → load_data f = (get_default_data, FileState.corrupt)) := by
  refine ⟨fun d hd => ?_, fun ha => ?_, fun hc => ?_⟩
  · subst hd; rfl
  · subst ha; rfl
  · subst hc; rfl

/-- Witness for load_data_amended at the absent-file state. -/
theorem load_data_amended_witness :
    load_data FileState.absent = (get_default_data, FileState.good get_default_data) :=
  (load_data_amended FileState.absent).2.1 rfl

/-- C8: saving a well-formed dataset and loading it back returns the same
dataset (the durable file parses to exactly what was serialized). -/
theorem save_load_roundtrip (d : Dataset) (_wf : WellFormed d) :
    (load_data (save_data d)).1 = d := rfl

/-- Witness for save_load_roundtrip on the seed dataset. -/
theorem save_load_roundtrip_witness :
    (load_data (save_data get_default_data)).1 = get_default_data :=
  save_load_roundtrip get_default_data (by decide)

/-- C5: when the cursor is already at or past the end of the snapshot
(including the never-started session with an empty snapshot), check_answer
returns the terminal finished signal and leaves the session untouched; the
embedding's only index access carries an in-bounds proof, so no
out-of-bounds access is possible in any branch. -/
theorem check_answer_finished_spec (s : Session) (f : FileState) (a : String)
    (h : s.test_words.length ≤ s.current_index) :
    check_answer a f s = (CheckResponse.finishedOnly, s, (load_data f).2) := by
  unfold check_answer
  simp [h]

/-- Witness for check_answer_finished_spec on the never-started session. -/
theorem check_answer_finished_spec_witness :
    check_answer "x" FileState.absent initSession =
      (CheckResponse.finishedOnly, initSession, FileState.good get_default_data) :=
  check_answer_finished_spec initSession FileState.absent "x" (by decide)

/-- C10: the response and the updated session of check_answer do not depend
on the durable dataset: the handler loads the dataset and discards it, so
any two file states produce the same response and session. -/
theorem check_answer_dataset_independent (f1 f2 : FileState) (s : Session) (a : String) :
    (check_answer a f1 s).1 = (check_answer a f2 s).1 ∧
    (check_answer a f1 s).2.1 = (check_answer a f2 s).2.1 := by
  unfold check_answer
  by_cases h : s.test_words.length ≤ s.current_index <;> simp [h]

/-- C4: on an in-progress session, check_answer grades the trimmed,
lower-cased answer against the lower-cased stored translation by exact
string equality, bumps the score exactly on equality, advances the cursor
by one, and reports finished exactly when the new cursor equals the
snapshot length. -/
theorem check_answer_spec (s : Session) (f : FileState) (a : String)
    (h : s.current_index < s.test_words.length) :
    check_answer a f s =
      (CheckResponse.answered
         (pyLower (pyStrip a) == pyLower (s.test_words.get ⟨s.current_index, h⟩).2)
         (s.test_words.get ⟨s.current_index, h⟩).2
         (decide (s.test_words.length ≤ s.current_index + 1)),
       { s with
           score := if pyLower (pyStrip a) == pyLower (s.test_words.get ⟨s.current_index, h⟩).2
                    then s.score + 1 else s.score,
           current_index := s.current_index + 1 },
       (load_data f).2) ∧
    (decide (s.test_words.length ≤ s.current_index + 1) = true ↔
      s.current_index + 1 = s.test_words.length) := by
  have h' : ¬ s.test_words.length ≤ s.current_index := by omega
  constructor
  · unfold check_answer
    simp [h']
  · constructor
    · intro hfin
      have := of_decide_eq_true hfin
      omega
    · intro heq
      exact decide_eq_true (by omega)

/-- Witness for check_answer_spec: one-word quiz, correct answer. -/
theorem check_answer_spec_witness :
    check_answer "преступление" (FileState.good get_default_data)
        ⟨[("crime", "преступление")], 0, 0, "Уголовное право"⟩ =
      (CheckResponse.answered true "преступление" true,
       ⟨[("crime", "преступление")], 1, 1, "Уголовное право"⟩,
       FileState.good get_default_data) := by
  have h := (check_answer_spec ⟨[("crime", "преступление")], 0, 0, "Уголовное право"⟩
    (FileState.good get_default_data) "преступление" (by decide)).1
  exact h.trans (by decide)

/-- Operations a browser can perform that touch the quiz session. -/
inductive SessionOp : Type
  | start : String → FileState → SessionOp
  | answer : String → FileState → SessionOp

/-- The session produced by one quiz-start or answer-submission request. -/
def applyOp (s : Session) : SessionOp → Session
  | SessionOp.start c f => (test c f s).1
  | SessionOp.answer a f => (check_answer a f s).2.1

/-- Sessions reachable from the fresh browser session by any sequence of
quiz starts and answer submissions. -/
inductive ReachableSession : Session → Prop
  | init : ReachableSession initSession
  | step (s : Session) (op : SessionOp) :
      ReachableSession s → ReachableSession (applyOp s op)

/-- The quiz-session invariant; the lower bounds 0 ≤ position and 0 ≤ score
hold by the Nat typing of the fields. -/
def SessionInv (s : Session) : Prop :=
  s.current_index ≤ s.test_words.length ∧ s.score ≤ s.current_index

theorem sessionInv_test (c : String) (f : FileState) (s : Session)
    (hs : SessionInv s) : SessionInv (test c f s).1 := by
  unfold test
  rcases hl : alLookup c (load_data f).1 with _ | words
  · simpa [hl] using hs
  · by_cases hw : words = []
    · simpa [hl, hw] using hs
    · simp [hl, hw, SessionInv]

theorem sessionInv_check_answer (a : String) (f : FileState) (s : Session)
    (hs : SessionInv s) : SessionInv (check_answer a f s).2.1 := by
  obtain ⟨h1, h2⟩ := hs
  unfold check_answer
  by_cases h : s.test_words.length ≤ s.current_index
  · simpa [h] using ⟨h1, h2⟩
  · simp only [h, dite_false, dif_neg]
    refine ⟨by simpa using Nat.lt_iff_add_one_le.mp (by omega), ?_⟩
    simp only
    split <;> omega

/-- C6: the invariant position ≤ len(items) and score ≤ position holds in
every session reachable from the fresh session by quiz starts and answer
submissions (against arbitrary file states). -/
theorem session_invariant_reachable (s : Session) (h : ReachableSession s) :
    SessionInv s := by
  induction h with
  | init => exact ⟨Nat.le_refl 0, Nat.le_refl 0⟩
  | step s' op _ ih =>
      cases op with
      | start c f => exact sessionInv_test c f s' ih
      | answer a f => exact sessionInv_check_answer a f s' ih

/-- Witness for session_invariant_reachable at the initial session. -/
theorem session_invariant_reachable_witness : SessionInv initSession :=
  session_invariant_reachable initSession ReachableSession.init

theorem delete_step_noEmpty {data : Dataset} (h : NoEmptyCats data)
    (c : String) (e : Option String) : NoEmptyCats (delete_step data c e) := by
  unfold delete_step
  by_cases ht : truthy e
  · simp only [ht, if_true]
    rcases hl : alLookup c data with _ | wm
    · exact h
    · simp only
      by_cases hw : (alLookup (e.getD "") wm).isSome
      · simp only [hw, if_true]
        by_cases hz : alErase (e.getD "") wm = []
        · simp only [hz, if_true]
          exact fun p hp => h p (mem_alErase hp)
        · simp only [hz, if_false]
          intro p hp
          rcases mem_alInsert hp with h2 | h2
          · rw [h2]; exact hz
          · exact h p h2
      · simp only [hw, if_false]
        exact h
  · simp only [ht, if_false]
    exact fun p hp => h p (mem_alErase hp)

theorem foldl_api_words_delete_good (ops : List (String × Option String)) (d : Dataset) :
    ops.foldl (fun fs op => api_words_delete op.1 op.2 fs) (FileState.good d)
      = FileState.good (ops.foldl (fun acc op => delete_step acc op.1 op.2) d) := by
  induction ops generalizing d with
  | nil => rfl
  | cons op rest ih =>
      simp only [List.foldl_cons]
      exact ih (delete_step d op.1 op.2)

theorem foldl_delete_step_noEmpty (d : Dataset) (h : NoEmptyCats d)
    (ops : List (String × Option String)) :
    NoEmptyCats (ops.foldl (fun acc op => delete_step acc op.1 op.2) d) := by
  induction ops generalizing d with
  | nil => exact h
  | cons op rest ih => exact ih _ (delete_step_noEmpty h op.1 op.2)

/-- C7: starting from a dataset with no empty categories, any sequence of
DELETE /api/words requests (word deletions and category deletions) leaves a
dataset with no empty categories: deleting the last word of a category
removes the category itself. -/
theorem deletes_preserve_no_empty (d : Dataset) (h : NoEmptyCats d)
    (ops : List (String × Option String)) (d' : Dataset)
    (hrun : ops.foldl (fun fs op => api_words_delete op.1 op.2 fs) (FileState.good d)
              = FileState.good d') :
    NoEmptyCats d' := by
  rw [foldl_api_words_delete_good] at hrun
  cases hrun
  exact foldl_delete_step_noEmpty d h ops

/-- Witness for deletes_preserve_no_empty: deleting the sole word of
category X removes X itself, leaving only Y. -/
theorem deletes_preserve_no_empty_witness :
    NoEmptyCats [("Y", [("c", "d")])] :=
  deletes_preserve_no_empty [("X", [("a", "b")]), ("Y", [("c", "d")])] (by decide)
    [("X", some "a")] [("Y", [("c", "d")])] (by decide)

/-- C9: the results view reports the session's score, the snapshot length
as total, the category, and percentage round(score/total*100, 1) for a
positive total and 0 for an empty one; it needs no precondition and leaves
the session unchanged. -/
theorem results_spec (s : Session) :
    (results s).2 = s ∧
    (results s).1.score = s.score ∧
    (results s).1.total = s.test_words.length ∧
    (results s).1.category = s.category ∧
    (s.test_words.length = 0 → (results s).1.percentage = 0) ∧
    (0 < s.test_words.length →
      (results s).1.percentage
        = pyRound1 ((s.score : ℚ) / (s.test_words.length : ℚ) * 100)) := by
  refine ⟨rfl, rfl, rfl, rfl, fun h0 => ?_, fun hpos => ?_⟩
  · simp [results, h0]
  · simp [results, hpos]

/-- Witness for results_spec: one correct answer out of two. -/
theorem results_spec_witness :
    (results ⟨[("crime", "преступление"), ("penalty", "наказание")], 2, 1,
        "Уголовное право"⟩).1.percentage
      = pyRound1 (((1 : ℕ) : ℚ) / ((2 : ℕ) : ℚ) * 100) :=
  (results_spec ⟨[("crime", "преступление"), ("penalty", "наказание")], 2, 1,
    "Уголовное право"⟩).2.2.2.2.2 (by decide)

/-- Shared helper: POST /api/words persists the (english → russian) entry
under the category exactly as the strings were supplied, with no trimming,
lower-casing or validation. -/
theorem api_post_stores_raw (english russian category : String) (f : FileState) :
    alLookup english
        ((alLookup category
          (api_words_get (api_words_post english russian category f)).1).getD [])
      = some russian := by
  unfold api_words_get api_words_post
  simp only [load_data, save_data, alLookup_alInsert_self, Option.getD_some]

/-- C1 counterexample: POST /api/words with english Tort stores the key
Tort verbatim; the subsequent GET shows no entry under tort in the
category, contradicting the claimed lower-casing of every mutating entry
point. -/
theorem api_post_casing_counterexample :
    alLookup "tort" ((alLookup "Гражданское право"
        (api_words_get (api_words_post "Tort" "деликт" "Гражданское право"
          (FileState.good get_default_data))).1).getD []) = none ∧
    alLookup "Tort" ((alLookup "Гражданское право"
        (api_words_get (api_words_post "Tort" "деликт" "Гражданское право"
          (FileState.good get_default_data))).1).getD []) = some "деликт" :=
  ⟨by decide, by decide⟩

/-- C1 (amended): only the /add_word form POST lower-cases (and strips) the
term before storing it; the JSON API upsert stores the term exactly as
supplied, so POST /api/words with english Tort makes GET /api/words show
the entry under the key Tort, not tort. -/
theorem upsert_casing_amended (english russian category new_category : String) (f : FileState)
    (he : pyLower (pyStrip english) ≠ "") (hr : pyStrip russian ≠ "")
    (hnc : pyStrip new_category ≠ "") :
    alLookup (pyLower (pyStrip english))
        ((alLookup (pyStrip new_category)
          (load_data (add_word_post english russian category new_category f).2).1).getD [])
      = some (pyStrip russian) ∧
    alLookup english
        ((alLookup category
          (api_words_get (api_words_post english russian category f)).1).getD [])
      = some russian := by
  constructor
  · have hv : ¬ (pyLower (pyStrip english) = "" ∨ pyStrip russian = "") := by
      simp [he, hr]
    unfold add_word_post
    simp only [hv, if_false, hnc, if_true, ite_not]
    simp only [load_data, save_data, alLookup_alInsert_self, Option.getD_some]
  · exact api_post_stores_raw english russian category f

/-- Witness for upsert_casing_amended on the Tort scenario (form upsert
into a fresh category, API upsert into the seed category). -/
theorem upsert_casing_amended_witness :
    alLookup "tort" ((alLookup "Новая"
        (load_data (add_word_post "Tort" "деликт" "" "Новая"
          (FileState.good get_default_data)).2).1).getD []) = some "деликт" ∧
    alLookup "Tort" ((alLookup "Гражданское право"
        (api_words_get (api_words_post "Tort" "деликт" "Гражданское право"
          (FileState.good get_default_data))).1).getD []) = some "деликт" :=
  upsert_casing_amended "Tort" "деликт" "" "Новая" (FileState.good get_default_data)
    (by decide) (by decide) (by decide)

/-- C2 counterexample: POST /api/words with english a single space and
russian empty — both empty after trimming — is not rejected: the entry is
persisted verbatim and visible in the subsequent GET, so the API upsert
performs no validation and the dataset changes. -/
theorem api_post_validation_counterexample :
    alLookup " " ((alLookup "Гражданское право"
        (api_words_get (api_words_post " " "" "Гражданское право"
          (FileState.good get_default_data))).1).getD []) = some "" ∧
    (api_words_get (api_words_post " " "" "Гражданское право"
        (FileState.good get_default_data))).1 ≠ get_default_data :=
  ⟨by decide, by decide⟩

/-- C2 (amended): only the /add_word form POST validates: it rejects an
english or russian field that is empty after trimming with an inline error
message and performs no save, and likewise rejects an unresolvable category
(new_category taking precedence over category when both are supplied); the
JSON API upsert performs no validation and persists whatever strings are
supplied, empty-after-trimming ones included. -/
theorem mutation_validation_amended (english russian category new_category : String)
    (f : FileState) :
    (pyLower (pyStrip english) = "" ∨ pyStrip russian = "" →
      add_word_post english russian category new_category f
        = (AddWordResponse.validationError "Все поля обязательны для заполнения",
           (load_data f).2)) ∧
    (¬ (pyLower (pyStrip english) = "" ∨ pyStrip russian = "") →
      pyStrip new_category = "" → pyStrip category = "" →
      add_word_post english russian category new_category f
        = (AddWordResponse.validationError "Необходимо выбрать или создать категорию",
           (load_data f).2)) ∧
    alLookup english
        ((alLookup category
          (api_words_get (api_words_post english russian category f)).1).getD [])
      = some russian := by
  refine ⟨fun hv => ?_, fun hv hnc hc => ?_, api_post_stores_raw english russian category f⟩
  · unfold add_word_post
    simp only [hv, if_true]
  · unfold add_word_post
    simp only [hv, if_false, hnc, hc, ite_not, if_true]

/-- Witness for mutation_validation_amended: a whitespace-only english
field is rejected by the form handler with the all-fields-required error
and nothing is saved. -/
theorem mutation_validation_amended_witness :
    add_word_post " " "x" "c" "" (FileState.good get_default_data)
      = (AddWordResponse.validationError "Все поля обязательны для заполнения",
         FileState.good get_default_data) :=
  (mutation_validation_amended " " "x" "c" "" (FileState.good get_default_data)).1
    (by decide)

end App
